import Mathlib

/-!
Shallow embedding of `src/scripts/curation/bird_schema_converter_postgres.py`.

The script introspects a Postgres database through information-schema queries
and assembles a nested schema dictionary.  We model the database at the query
boundary: a `PGDatabase` records, for each table, the rows that the script's
catalog queries return, plus the raw cell contents of each column (so that the
per-column sampling query `SELECT c FROM t WHERE c IS NOT NULL LIMIT 5` can be
given its SQL semantics explicitly as `filterMap` + `take 5`).

Python dictionaries are modelled as insertion-ordered association lists with
value replacement at an existing key (`dictInsert` / `dictLookup`).
-/

namespace BirdSchema

/-- Python-dict model: association list in key-insertion order.  Inserting an
existing key replaces its value in place; a new key is appended at the end. -/
def dictInsert {α : Type} : List (String × α) → String → α → List (String × α)
  | [], k, v => [(k, v)]
  | p :: ps, k, v => if p.1 == k then (k, v) :: ps else p :: dictInsert ps k v

/-- Python-dict lookup: value of the first entry with the given key. -/
def dictLookup {α : Type} : List (String × α) → String → Option α
  | [], _ => none
  | p :: ps, k => if p.1 == k then some p.2 else dictLookup ps k

/-- Python string comparison (`sorted` on `str`): lexicographic on code
points.  Defined on char lists so that it evaluates in the kernel. -/
def charListLe : List Char → List Char → Bool
  | [], _ => true
  | _ :: _, [] => false
  | a :: as, b :: bs =>
    if a.val < b.val then true
    else if b.val < a.val then false
    else charListLe as bs

/-- Python `a <= b` on strings. -/
def pyStrLe (a b : String) : Bool := charListLe a.data b.data

/-- Python `s.lower()`, modelled per character (coincides on ASCII). -/
def pyLower (s : String) : String := String.mk (s.data.map Char.toLower)

/-- Python `s.upper()`, modelled per character (coincides on ASCII). -/
def pyUpper (s : String) : String := String.mk (s.data.map Char.toUpper)

/-- A database cell value, with Python's `str(...)` rendering. -/
inductive PGVal where
  | int (n : Int)
  | text (s : String)
  | bool (b : Bool)
deriving DecidableEq, Repr

/-- Python `str(...)` on the modelled value kinds. -/
def PGVal.render : PGVal → String
  | .int n => toString n
  | .text s => s
  | .bool true => "True"
  | .bool false => "False"

/-- One row of the `information_schema.columns` query for a table:
column name, declared data type, and ordinal position. -/
structure ColCatRow where
  column_name : String
  data_type : String
  ordinal_position : Nat
deriving DecidableEq, Repr

/-- The live Postgres database, seen at the boundary of the script's queries:
the rows each catalog query returns, and the raw cells of each column
(`none` models SQL NULL). -/
structure PGDatabase where
  publicTables : List String
  pkRows : String → List String
  fkRows : String → List (String × String × String)
  columnRows : String → List ColCatRow
  cells : String → String → List (Option PGVal)

structure ForeignKeyRef where
  target_table : String
  target_column : String
deriving DecidableEq, Repr

structure ColumnDescriptor where
  name : String
  type : String
  primary_key : Bool
  foreign_keys : List ForeignKeyRef
  description : String
  value_samples : List String
deriving DecidableEq, Repr

structure TableRecord where
  name : String
  columns : List ColumnDescriptor
  description : String
  table_str : String
deriving DecidableEq, Repr

structure DatabaseRecord where
  name : String
  tables : List (String × TableRecord)
deriving DecidableEq, Repr

/-- One manifest entry of `dev_tables.json`. -/
structure DbInfo where
  db_id : String
  table_names_original : List String
deriving DecidableEq, Repr

/-- `get_primary_keys` (source lines 12-33): the PRIMARY KEY constraint query
returns `pkRows table`; the Python set comprehension is used only for
membership tests, so we keep the row list (membership is unchanged). -/
def get_primary_keys (db : PGDatabase) (table : String) : List String :=
  db.pkRows table

/-- `get_foreign_keys_by_column` (source lines 36-72): fold the FOREIGN KEY
constraint rows `(column_name, foreign_table, foreign_column)` into a dict
mapping source column to the list of targets, via
`fk_map.setdefault(col, []).append(...)` - i.e. append to the existing list
at the key (keeping its position), or insert a fresh singleton list. -/
def get_foreign_keys_by_column (db : PGDatabase) (table : String) :
    List (String × List ForeignKeyRef) :=
  (db.fkRows table).foldl
    (fun m r =>
      dictInsert m r.1 ((dictLookup m r.1).getD [] ++ [⟨r.2.1, r.2.2⟩])) []

/-- The `information_schema.columns` query of `get_columns`
(source lines 89-97): rows `ORDER BY ordinal_position`. -/
def columnsQueryRows (db : PGDatabase) (table : String) : List ColCatRow :=
  (db.columnRows table).insertionSort
    (fun a b => a.ordinal_position ≤ b.ordinal_position)

/-- The per-column sampling query of `get_columns` (source lines 102-105):
`SELECT c FROM t WHERE c IS NOT NULL LIMIT 5` - drop NULL cells, keep at
most the first 5. -/
def sampleQueryRows (db : PGDatabase) (table column : String) : List PGVal :=
  ((db.cells table column).filterMap id).take 5

/-- `get_columns` (source lines 75-120): one `ColumnDescriptor` per row of the
ordered columns query, with `data_type.upper()`, the primary-key membership
test, the foreign-key dict lookup with default `[]`, and the rendered
samples `[str(row[0]) for row in ...]`. -/
def get_columns (db : PGDatabase) (table : String) : List ColumnDescriptor :=
  let primary_keys := get_primary_keys db table
  let foreign_keys_map := get_foreign_keys_by_column db table
  (columnsQueryRows db table).map (fun row =>
    { name := row.column_name
      type := pyUpper row.data_type
      primary_key := decide (row.column_name ∈ primary_keys)
      foreign_keys := (dictLookup foreign_keys_map row.column_name).getD []
      description := ""
      value_samples := (sampleQueryRows db table row.column_name).map PGVal.render })

/-- `get_tables` (source lines 123-135): the names of the public tables,
sorted ascending (Python `sorted`). -/
def get_tables (db : PGDatabase) : List String :=
  db.publicTables.insertionSort (fun a b => pyStrLe a b = true)

/-- `fill_table_info` (source lines 138-154). -/
def fill_table_info (db : PGDatabase) (table_name : String) : TableRecord :=
  { name := table_name
    columns := get_columns db table_name
    description := ""
    table_str := "" }

/-- Source line 174: `pg_tables_lower = {t.lower(): t for t in pg_tables}`.
A dict comprehension: entries are inserted left to right, a duplicate
lower-cased key replaces the earlier value. -/
def build_pg_tables_lower (pg_tables : List String) : List (String × String) :=
  pg_tables.foldl (fun m t => dictInsert m (pyLower t) t) []

/-- Source lines 185-195: the table-name resolution of the schema assembler.
Exact membership in `pg_tables` wins; otherwise the lower-cased name is
looked up in `pg_tables_lower` (`none` models the `continue` skip). -/
def resolveTable (pg_tables : List String) (pg_tables_lower : List (String × String))
    (table : String) : Option String :=
  if table ∈ pg_tables then some table
  else dictLookup pg_tables_lower (pyLower table)

/-- Source lines 184-197: the inner loop over `table_names_original`, filling
`schema[db_id]["tables"]` with `fill_table_info` under the resolved name,
skipping unresolved names. -/
def processTables (db : PGDatabase) (pg_tables : List String)
    (pg_tables_lower : List (String × String)) (names : List String) :
    List (String × TableRecord) :=
  names.foldl
    (fun acc t =>
      match resolveTable pg_tables pg_tables_lower t with
      | some resolved => dictInsert acc resolved (fill_table_info db resolved)
      | none => acc) []

/-- `get_bird_pg_schema_dict` (source lines 157-201), on the success path
(no query raises): for each manifest entry, `schema[db_id]` is set to a
fresh record (replacing any record from an earlier entry with the same
`db_id`) and its `tables` dict is then filled from the entry's names. -/
def get_bird_pg_schema_dict (db : PGDatabase) (dev_tables_json : List DbInfo) :
    List (String × DatabaseRecord) :=
  let pg_tables := get_tables db
  let pg_tables_lower := build_pg_tables_lower pg_tables
  dev_tables_json.foldl
    (fun schema db_info =>
      dictInsert schema db_info.db_id
        { name := db_info.db_id
          tables := processTables db pg_tables pg_tables_lower db_info.table_names_original })
    []

/-!
Instrumented run model for the connection lifecycle of
`get_bird_pg_schema_dict` (source lines 169-201).  `raises resolved = true`
models a `psycopg2` exception raised while processing the resolved table
(constraint, column, or sampling query); the source has no `try`/`finally`
or `with` block, so the exception propagates out of the function and the
`conn.close()` on line 199 never executes.  The second component of the
result counts how many times `conn.close()` ran.
-/

/-- The inner table loop of the run model: resolve each name, skip the
unresolved, and abort with the propagating exception when processing the
resolved table raises. -/
def runTables (db : PGDatabase) (raises : String → Bool) (pg_tables : List String)
    (pg_tables_lower : List (String × String)) :
    List String → List (String × TableRecord) →
      Except String (List (String × TableRecord))
  | [], acc => Except.ok acc
  | t :: ts, acc =>
    match resolveTable pg_tables pg_tables_lower t with
    | none => runTables db raises pg_tables pg_tables_lower ts acc
    | some resolved =>
      if raises resolved then Except.error resolved
      else
        runTables db raises pg_tables pg_tables_lower ts
          (dictInsert acc resolved (fill_table_info db resolved))

/-- The outer manifest loop of the run model. -/
def runDatabases (db : PGDatabase) (raises : String → Bool) (pg_tables : List String)
    (pg_tables_lower : List (String × String)) :
    List DbInfo → List (String × DatabaseRecord) →
      Except String (List (String × DatabaseRecord))
  | [], schema => Except.ok schema
  | info :: rest, schema =>
    match runTables db raises pg_tables pg_tables_lower info.table_names_original [] with
    | Except.error e => Except.error e
    | Except.ok tabs =>
      runDatabases db raises pg_tables pg_tables_lower rest
        (dictInsert schema info.db_id { name := info.db_id, tables := tabs })

/-- `get_bird_pg_schema_dict` with its connection lifecycle: `conn.close()`
(line 199) runs exactly on the fall-through path after the loops; when a
table raises, the exception propagates and the close is skipped. -/
def run_get_bird_pg_schema_dict (db : PGDatabase) (raises : String → Bool)
    (manifest : List DbInfo) :
    Except String (List (String × DatabaseRecord)) × Nat :=
  match runDatabases db raises (get_tables db)
      (build_pg_tables_lower (get_tables db)) manifest [] with
  | Except.error e => (Except.error e, 0)
  | Except.ok s => (Except.ok s, 1)

/-!
Model of the `__main__` connection-string selection (source lines 234-244).
-/

/-- Outcome of the `__main__` connection-string selection. -/
inductive MainResolution where
  /-- Execution reaches `get_bird_pg_schema_dict(dev_tables_json, pg_conn_str)`
  with this value bound to `pg_conn_str`. -/
  | useConn (connStr : Option String)
  /-- `raise RuntimeError("Missing POSTGRES_CONNECTION_STRING")` on line 238. -/
  | abortMissing
  /-- The call on line 245 reads the local `pg_conn_str`, which was never
  assigned, so Python raises `NameError` before connecting. -/
  | nameError
deriving DecidableEq, Repr

/-- Source lines 234-244, verbatim control flow: when the flag is absent,
`pg_conn_str` is read from the environment; a falsy value raises; otherwise
line 240 executes `pg_conn_str = args.pg_conn_str` (the absent flag value).
When the flag is present the whole block is skipped and `pg_conn_str` is
never assigned. -/
def resolve_conn_str (flagValue envValue : Option String) : MainResolution :=
  match flagValue with
  | some _ => MainResolution.nameError
  | none =>
    match envValue with
    | none => MainResolution.abortMissing
    | some e =>
      if e = "" then MainResolution.abortMissing
      else MainResolution.useConn flagValue

/-!
Concrete example databases, used by witnesses and counterexamples.
-/

/-- A small live database: tables `Customers(id, name)` with primary key `id`,
and `orders(order_id, customer_id)` with a foreign key
`customer_id → Customers.id`. -/
def exDB : PGDatabase where
  publicTables := ["orders", "Customers"]
  pkRows := fun t =>
    if t == "Customers" then [("id")]
    else if t == "orders" then [("order_id")]
    else []
  fkRows := fun t =>
    if t == "orders" then [(("customer_id"), ("Customers"), ("id"))] else []
  columnRows := fun t =>
    if t == "Customers" then
      [⟨("id"), ("integer"), 1⟩, ⟨("name"), ("text"), 2⟩]
    else if t == "orders" then
      [⟨("order_id"), ("integer"), 1⟩, ⟨("customer_id"), ("integer"), 2⟩]
    else []
  cells := fun t c =>
    if t == "Customers" && c == "id" then
      [some (PGVal.int 1), none, some (PGVal.int 2)]
    else if t == "Customers" && c == "name" then
      [some (PGVal.text ("alice")), none, some (PGVal.text ("bob")),
       some (PGVal.text ("carol")), some (PGVal.text ("dave")),
       some (PGVal.text ("erin")), some (PGVal.text ("frank"))]
    else if t == "orders" && c == "order_id" then
      [some (PGVal.int 10), some (PGVal.int 11)]
    else if t == "orders" && c == "customer_id" then
      [some (PGVal.int 1), none]
    else []

/-- A live database with two tables whose names differ only by case. -/
def caseDB : PGDatabase where
  publicTables := ["users", "Users"]
  pkRows := fun _ => []
  fkRows := fun _ => []
  columnRows := fun _ => []
  cells := fun _ _ => []

/-- A raising oracle: processing the `Customers` table raises. -/
def exRaises : String → Bool := fun t => t == "Customers"

/-- An all-empty column descriptor, used only as a `headD`/`getD` default. -/
def emptyCol : ColumnDescriptor :=
  { name := "", type := "", primary_key := false, foreign_keys := []
    description := "", value_samples := [] }

/-!
Helper lemmas about the dict model and the assembler.
-/

/-- Looking a key up after a dict insertion. -/
theorem dictLookup_dictInsert {α : Type} (m : List (String × α)) (k : String) (v : α)
    (q : String) :
    dictLookup (dictInsert m k v) q = if k = q then some v else dictLookup m q := by
  induction m with
  | nil =>
    by_cases h : k = q <;> simp [dictInsert, dictLookup, h]
  | cons p ps ih =>
    by_cases hp : p.1 = k
    · by_cases hq : k = q <;> simp [dictInsert, dictLookup, hp, hq]
    · by_cases hpq : p.1 = q
      · have hkq : ¬k = q := fun h => hp (by rw [hpq, h])
        have hqk : ¬q = k := fun h => hkq h.symm
        simp [dictInsert, dictLookup, hp, hpq, hkq, hqk]
      · simp [dictInsert, dictLookup, hp, hpq, ih]

/-- The lower-cased name dict built by a left fold: the **last** live name
with a matching lower-casing wins (later dict-comprehension entries replace
earlier ones). -/
theorem build_lower_foldl (ts : List String) (m : List (String × String)) (k : String) :
    dictLookup (ts.foldl (fun acc t => dictInsert acc (pyLower t) t) m) k =
      (ts.reverse.find? (fun t => pyLower t == k)).or (dictLookup m k) := by
  induction ts generalizing m with
  | nil => simp
  | cons t rest ih =>
    rw [List.foldl_cons, ih, dictLookup_dictInsert, List.reverse_cons, List.find?_append,
      Option.or_assoc]
    by_cases h : pyLower t = k
    · simp [List.find?, h]
    · have hb : (pyLower t == k) = false := by simp [h]
      simp [List.find?, hb, h]

/-- `build_pg_tables_lower` resolves a lower-cased key to the last live name
(in enumeration order) whose lower-casing matches. -/
theorem build_pg_tables_lower_lookup (pg : List String) (k : String) :
    dictLookup (build_pg_tables_lower pg) k =
      pg.reverse.find? (fun t => pyLower t == k) := by
  rw [build_pg_tables_lower, build_lower_foldl]
  simp [dictLookup]

/-- Any value stored in the lower-cased name dict is a live table name. -/
theorem mem_of_build_lower_lookup (pg : List String) (k r : String)
    (h : dictLookup (build_pg_tables_lower pg) k = some r) : r ∈ pg := by
  rw [build_pg_tables_lower_lookup] at h
  exact List.mem_reverse.mp (List.mem_of_find?_eq_some h)

/-- Any resolved table name is a live table name. -/
theorem resolveTable_mem (pg : List String) (T r : String)
    (h : resolveTable pg (build_pg_tables_lower pg) T = some r) : r ∈ pg := by
  by_cases hT : T ∈ pg
  · simp [resolveTable, hT] at h
    exact h ▸ hT
  · simp [resolveTable, hT] at h
    exact mem_of_build_lower_lookup pg (pyLower T) r h

/-- The foreign-key fold: the list stored under a column is the base list
followed by the targets of exactly the rows whose source column matches,
in row order. -/
theorem fk_foldl_getD (rows : List (String × String × String))
    (m : List (String × List ForeignKeyRef)) (c : String) :
    (dictLookup
        (rows.foldl
          (fun m r => dictInsert m r.1 ((dictLookup m r.1).getD [] ++ [⟨r.2.1, r.2.2⟩])) m)
        c).getD [] =
      (dictLookup m c).getD [] ++
        ((rows.filter (fun r => r.1 == c)).map
          (fun r => (⟨r.2.1, r.2.2⟩ : ForeignKeyRef))) := by
  induction rows generalizing m with
  | nil => simp
  | cons r rs ih =>
    rw [List.foldl_cons, ih, dictLookup_dictInsert]
    by_cases h : r.1 = c
    · simp [h, List.filter_cons]
    · simp [h, List.filter_cons]

/-- The foreign-key list `get_columns` attaches to a column name. -/
theorem fk_map_getD (db : PGDatabase) (t c : String) :
    (dictLookup (get_foreign_keys_by_column db t) c).getD [] =
      ((db.fkRows t).filter (fun r => r.1 == c)).map
        (fun r => (⟨r.2.1, r.2.2⟩ : ForeignKeyRef)) := by
  have h := fk_foldl_getD (db.fkRows t) [] c
  simpa [get_foreign_keys_by_column, dictLookup] using h

/-- Keys of the per-database tables dict only ever come from live table
names: a name outside `pg` is never a key of the fold's result. -/
theorem processTables_lookup_none (db : PGDatabase) (pg : List String)
    (names : List String) (k : String) (hk : k ∉ pg) :
    ∀ acc : List (String × TableRecord), dictLookup acc k = none →
      dictLookup
        (names.foldl
          (fun acc t =>
            match resolveTable pg (build_pg_tables_lower pg) t with
            | some resolved => dictInsert acc resolved (fill_table_info db resolved)
            | none => acc) acc) k = none := by
  induction names with
  | nil => intro acc h; simpa using h
  | cons t ts ih =>
    intro acc hacc
    rw [List.foldl_cons]
    cases hres : resolveTable pg (build_pg_tables_lower pg) t with
    | none => simpa [hres] using ih acc hacc
    | some r =>
      have hr : r ∈ pg := resolveTable_mem pg t r hres
      have hrk : ¬r = k := fun h => hk (h ▸ hr)
      simp only [hres]
      apply ih
      rw [dictLookup_dictInsert]
      simp [hrk, hacc]

/-!
Claim theorems.
-/

/-- C1: for every manifest table name `T` and live table set, if `T` occurs
verbatim among the live table names the schema assembler uses `T` itself
(resolution is idempotent on exact-case names); otherwise, if the lower-cased
`T` occurs in the mapping from lower-cased live names to canonical live names,
the assembler uses the resolved differently-cased live name both as the key
and as the `name` field of the produced `TableRecord`. -/
theorem claim_C1_table_name_resolution (db : PGDatabase) (T r : String) :
    (T ∈ get_tables db →
      processTables db (get_tables db) (build_pg_tables_lower (get_tables db)) [T] =
        [(T, fill_table_info db T)]) ∧
    (T ∉ get_tables db →
      dictLookup (build_pg_tables_lower (get_tables db)) (pyLower T) = some r →
      processTables db (get_tables db) (build_pg_tables_lower (get_tables db)) [T] =
          [(r, fill_table_info db r)] ∧
        (fill_table_info db r).name = r) := by
  constructor
  · intro hT
    simp [processTables, resolveTable, hT, dictInsert]
  · intro hT hr
    exact ⟨by simp [processTables, resolveTable, hT, hr, dictInsert], rfl⟩

/-- Witness for C1 on the concrete database `exDB` (live table `Customers`):
the exact-case name `Customers` resolves to itself, and the manifest name
`customers` resolves to the differently-cased key `Customers`, which is also
the produced record's `name`. -/
theorem claim_C1_witness :
    (processTables exDB (get_tables exDB) (build_pg_tables_lower (get_tables exDB))
        [("Customers")] = [(("Customers"), fill_table_info exDB ("Customers"))]) ∧
    (processTables exDB (get_tables exDB) (build_pg_tables_lower (get_tables exDB))
        [("customers")] = [(("Customers"), fill_table_info exDB ("Customers"))] ∧
      (fill_table_info exDB ("Customers")).name = "Customers") :=
  ⟨(claim_C1_table_name_resolution exDB ("Customers") ("Customers")).1 (by decide),
   (claim_C1_table_name_resolution exDB ("customers") ("Customers")).2 (by decide) (by decide)⟩

/-- C2: every `ColumnDescriptor` produced by `get_columns` has its
primary-key flag true exactly when its column name belongs to the table's
primary-key constraint set. -/
theorem claim_C2_primary_key_flag (db : PGDatabase) (t : String) (c : ColumnDescriptor)
    (h : c ∈ get_columns db t) :
    c.primary_key = true ↔ c.name ∈ get_primary_keys db t := by
  simp only [get_columns, List.mem_map] at h
  obtain ⟨row, -, rfl⟩ := h
  simp

/-- Witness for C2: the first column of `Customers` in `exDB`. -/
theorem claim_C2_witness :
    ((get_columns exDB ("Customers")).headD emptyCol).primary_key = true ↔
      ((get_columns exDB ("Customers")).headD emptyCol).name ∈
        get_primary_keys exDB ("Customers") :=
  claim_C2_primary_key_flag exDB ("Customers")
    ((get_columns exDB ("Customers")).headD emptyCol) (by decide)

/-- C3: the `foreign_keys` list of every produced `ColumnDescriptor` is
exactly the list of `ForeignKeyRef`s of the foreign-key constraint rows whose
source column is that column, in query return order; in particular a column
with no such rows gets the empty list. -/
theorem claim_C3_foreign_keys (db : PGDatabase) (t : String) (c : ColumnDescriptor)
    (h : c ∈ get_columns db t) :
    c.foreign_keys =
      ((db.fkRows t).filter (fun r => r.1 == c.name)).map
        (fun r => (⟨r.2.1, r.2.2⟩ : ForeignKeyRef)) := by
  simp only [get_columns, List.mem_map] at h
  obtain ⟨row, -, rfl⟩ := h
  simpa using fk_map_getD db t row.column_name

/-- Witness for C3: the `customer_id` column of `orders` in `exDB`, which has
one foreign-key row targeting `Customers.id`. -/
theorem claim_C3_witness :
    ((get_columns exDB ("orders")).getD 1 emptyCol).foreign_keys =
      ((exDB.fkRows ("orders")).filter
          (fun r => r.1 == ((get_columns exDB ("orders")).getD 1 emptyCol).name)).map
        (fun r => (⟨r.2.1, r.2.2⟩ : ForeignKeyRef)) :=
  claim_C3_foreign_keys exDB ("orders")
    ((get_columns exDB ("orders")).getD 1 emptyCol) (by decide)

/-- C4 counterexample: the claim "the connection is closed exactly once on
every exit path, including the path where per-table processing raises" fails
on the code: with the concrete database `exDB`, a manifest requesting
`Customers`, and a query exception while processing `Customers`, the run
aborts with the propagating exception and `conn.close()` runs zero times
(the source has no `try`/`finally` or `with` around lines 170-199). -/
theorem claim_C4_counterexample :
    (run_get_bird_pg_schema_dict exDB exRaises [⟨("db1"), [("Customers")]⟩]).1 =
        Except.error ("Customers") ∧
    (run_get_bird_pg_schema_dict exDB exRaises [⟨("db1"), [("Customers")]⟩]).2 = 0 :=
  ⟨rfl, rfl⟩

/-- C4 amended: the connection is closed exactly once on the
normal-completion path, and is not closed at all (close count zero) when
per-table processing raises. -/
theorem claim_C4_amended_close_count (db : PGDatabase) (raises : String → Bool)
    (manifest : List DbInfo) :
    (run_get_bird_pg_schema_dict db raises manifest).2 =
      match (run_get_bird_pg_schema_dict db raises manifest).1 with
      | Except.ok _ => 1
      | Except.error _ => 0 := by
  unfold run_get_bird_pg_schema_dict
  cases hX : runDatabases db raises (get_tables db)
      (build_pg_tables_lower (get_tables db)) manifest [] <;> simp [hX]

/-- C5 (code bug): with the command-line flag absent and the environment
variable set to a non-empty connection string, line 240 rebinds
`pg_conn_str` to `args.pg_conn_str` (which is `None`), so the run proceeds
with `None` instead of the environment value, contradicting the log message
on lines 241-243 and the flag's help text; with the flag present the block is
skipped and `pg_conn_str` is never assigned, so line 245 raises `NameError`
instead of using the flag.  Only the neither-set abort behaves as claimed. -/
theorem claim_C5_conn_str_bug :
    resolve_conn_str none (some ("postgresql://localhost:5432/bird")) =
        MainResolution.useConn none ∧
    MainResolution.useConn none ≠
        MainResolution.useConn (some ("postgresql://localhost:5432/bird")) ∧
    resolve_conn_str (some ("postgresql://flagged")) (some ("postgresql://env")) =
        MainResolution.nameError ∧
    resolve_conn_str none none = MainResolution.abortMissing ∧
    resolve_conn_str none (some ("")) = MainResolution.abortMissing :=
  ⟨rfl, by decide, rfl, rfl, rfl⟩

/-- C6 counterexample: the claim "the first entry in the enumerator's sorted
order wins after lower-casing" fails on the code: with live tables `Users`
and `users` (sorted order puts `Users` first), the dict comprehension on
line 174 lets the **later** entry replace the earlier one, so the manifest
name `USERS` resolves to `users`, not to the first entry `Users`. -/
theorem claim_C6_counterexample :
    get_tables caseDB = [("Users"), ("users")] ∧
    resolveTable (get_tables caseDB) (build_pg_tables_lower (get_tables caseDB))
        ("USERS") = some ("users") ∧
    some ("users") ≠ some ("Users") :=
  ⟨rfl, rfl, by decide⟩

/-- C6 amended: when live table names collide after lower-casing, the
mapping from lower-cased name to canonical live name retains the **last**
entry in the enumerator's order, so case-insensitive resolution of a
manifest name returns the live case-insensitive match that comes last in
that order. -/
theorem claim_C6_amended_last_match_wins (pg : List String) (T : String)
    (hT : T ∉ pg) :
    resolveTable pg (build_pg_tables_lower pg) T =
      pg.reverse.find? (fun t => pyLower t == pyLower T) := by
  simp [resolveTable, hT, build_pg_tables_lower_lookup]

/-- Witness for the amended C6 on `caseDB`: `USERS` is not live verbatim and
resolves to the last case-insensitive match in sorted order. -/
theorem claim_C6_witness :
    resolveTable (get_tables caseDB) (build_pg_tables_lower (get_tables caseDB))
        ("USERS") =
      (get_tables caseDB).reverse.find? (fun t => pyLower t == pyLower ("USERS")) :=
  claim_C6_amended_last_match_wins (get_tables caseDB) ("USERS") (by decide)

/-- C7: a manifest table name with no exact or case-insensitive live
counterpart produces no entry under the database's `tables` mapping (its key
is absent, not bound to an empty or null record), and the database's record
is still produced, containing exactly the tables of the manifest entry that
did resolve. -/
theorem claim_C7_unresolved_table_omitted (db : PGDatabase) (id T : String)
    (ts : List String)
    (h : resolveTable (get_tables db) (build_pg_tables_lower (get_tables db)) T = none) :
    dictLookup
        (processTables db (get_tables db) (build_pg_tables_lower (get_tables db)) ts)
        T = none ∧
    get_bird_pg_schema_dict db [⟨id, ts⟩] =
      [(id,
        { name := id
          tables :=
            processTables db (get_tables db) (build_pg_tables_lower (get_tables db)) ts })] := by
  constructor
  · have hT : T ∉ get_tables db := fun hmem => by simp [resolveTable, hmem] at h
    have hnone := processTables_lookup_none db (get_tables db) ts T hT [] rfl
    simpa [processTables] using hnone
  · simp [get_bird_pg_schema_dict, dictInsert]

/-- Witness for C7 on `exDB`: `ghost_table` has no live counterpart; the
manifest `["Customers", "ghost_table"]` yields a record for `db1` with no
`ghost_table` key. -/
theorem claim_C7_witness :
    dictLookup
        (processTables exDB (get_tables exDB) (build_pg_tables_lower (get_tables exDB))
          [("Customers"), ("ghost_table")])
        ("ghost_table") = none ∧
    get_bird_pg_schema_dict exDB [⟨("db1"), [("Customers"), ("ghost_table")]⟩] =
      [(("db1"),
        { name := ("db1")
          tables :=
            processTables exDB (get_tables exDB) (build_pg_tables_lower (get_tables exDB))
              [("Customers"), ("ghost_table")] })] :=
  claim_C7_unresolved_table_omitted exDB ("db1") ("ghost_table")
    [("Customers"), ("ghost_table")] (by decide)

/-- C8: every produced `value_samples` has length at most 5, each sample is
the string rendering of a non-null cell of that column, and a column with
zero non-null cells yields the empty sample list. -/
theorem claim_C8_value_samples (db : PGDatabase) (t : String) (c : ColumnDescriptor)
    (h : c ∈ get_columns db t) :
    c.value_samples.length ≤ 5 ∧
    (∀ s ∈ c.value_samples, ∃ v : PGVal, some v ∈ db.cells t c.name ∧ s = v.render) ∧
    ((db.cells t c.name).filterMap id = [] → c.value_samples = []) := by
  simp only [get_columns, List.mem_map] at h
  obtain ⟨row, -, rfl⟩ := h
  refine ⟨?_, ?_, ?_⟩
  · simp [sampleQueryRows]
  · intro s hs
    simp only [List.mem_map] at hs
    obtain ⟨v, hv, rfl⟩ := hs
    have hv2 : v ∈ (db.cells t row.column_name).filterMap id :=
      List.mem_of_mem_take (by simpa [sampleQueryRows] using hv)
    obtain ⟨a, ha, hav⟩ := List.mem_filterMap.mp hv2
    have hae : a = some v := hav
    exact ⟨v, hae ▸ ha, rfl⟩
  · intro h0
    simp [sampleQueryRows, h0]

/-- Witness for C8: the `name` column of `Customers` in `exDB` has seven
cells, one of them NULL; the samples are the first five non-null renderings. -/
theorem claim_C8_witness :
    (((get_columns exDB ("Customers")).getD 1 emptyCol).value_samples.length ≤ 5) ∧
    (∀ s ∈ ((get_columns exDB ("Customers")).getD 1 emptyCol).value_samples,
      ∃ v : PGVal,
        some v ∈ exDB.cells ("Customers")
            ((get_columns exDB ("Customers")).getD 1 emptyCol).name ∧
        s = v.render) ∧
    ((exDB.cells ("Customers")
          ((get_columns exDB ("Customers")).getD 1 emptyCol).name).filterMap id = [] →
      ((get_columns exDB ("Customers")).getD 1 emptyCol).value_samples = []) :=
  claim_C8_value_samples exDB ("Customers")
    ((get_columns exDB ("Customers")).getD 1 emptyCol) (by decide)

instance : IsTotal ColCatRow (fun a b => a.ordinal_position ≤ b.ordinal_position) :=
  ⟨fun a b => Nat.le_total a.ordinal_position b.ordinal_position⟩

instance : IsTrans ColCatRow (fun a b => a.ordinal_position ≤ b.ordinal_position) :=
  ⟨fun _ _ _ h1 h2 => Nat.le_trans h1 h2⟩

/-- C9: the produced `columns` sequence lists one descriptor per catalog row,
in the catalog's ordinal-position order (the ordered rows are a
position-sorted permutation of the catalog rows, and the descriptor names
follow them one-to-one), and `fill_table_info` passes this sequence through
unchanged into the output `TableRecord`. -/
theorem claim_C9_column_order (db : PGDatabase) (t : String) :
    (get_columns db t).map (fun c => c.name) =
        (columnsQueryRows db t).map (fun r => r.column_name) ∧
    List.Sorted (fun a b => a ≤ b)
        ((columnsQueryRows db t).map (fun r => r.ordinal_position)) ∧
    (columnsQueryRows db t).Perm (db.columnRows t) ∧
    (fill_table_info db t).columns = get_columns db t := by
  refine ⟨?_, ?_, ?_, rfl⟩
  · simp [get_columns]
  · have hs := List.sorted_insertionSort
      (fun a b : ColCatRow => a.ordinal_position ≤ b.ordinal_position)
      (db.columnRows t)
    exact List.pairwise_map.mpr hs
  · exact List.perm_insertionSort
      (fun a b : ColCatRow => a.ordinal_position ≤ b.ordinal_position) (db.columnRows t)

/-- C10: when the manifest contains two entries with the same `db_id`, the
assembler reinitializes that database's record at the second entry, so only
the second entry's resolved tables appear in the output. -/
theorem claim_C10_duplicate_db_id (db : PGDatabase) (id : String)
    (ts1 ts2 : List String) :
    get_bird_pg_schema_dict db [⟨id, ts1⟩, ⟨id, ts2⟩] =
      [(id,
        { name := id
          tables :=
            processTables db (get_tables db) (build_pg_tables_lower (get_tables db)) ts2 })] := by
  simp [get_bird_pg_schema_dict, dictInsert]

end BirdSchema
